import Mathlib

/-!
Shallow embedding of the energyBaleares pipeline: `src/scraper.py`
(`EnergyDataScraper`) and `src/streamlit_app.py` (`EnergyDataApp`).

Modelling conventions, stated once:
* Calendar dates are epoch-day ordinals (`Int`); `datetime` plus or minus a
  `timedelta` is exactly integer day arithmetic, and `(end - start).days` is
  integer subtraction.
* An HTTP response is its status code together with, abstracting the
  black-box HTML parse, the cell texts of the `tr.datos` data rows (for each
  row the `th` cells followed by the `td` cells, the order produced by
  `row.find_all('th') + row.find_all('td')`).
* Python exceptions are modelled by `Except PyError`; a Python float column
  entry is `Option Rat` with `none` for NaN (missing).
* Single-character `str.replace` patterns are characterwise substitution or
  deletion, and `str.strip` drops whitespace at both ends.
-/

namespace EnergyBaleares

/-- Two-digit zero padding, the model of the Python format spec `{n:02d}`
for `n < 100`. -/
def pad2 (n : Nat) : String :=
  if n < 10 then "0" ++ toString n else toString n

/-- Fixed resource base address, `EnergyDataScraper.BASE_URL`. -/
def BASE_URL : String := "https://www.ree.es/es/balance-diario/baleares"

/-- Model of `EnergyDataScraper.build_url` (scraper.py line 37):
the f-string `{BASE_URL}/{date.year}/{date.month:02d}/{date.day:02d}`. -/
def build_url (year month day : Nat) : String :=
  BASE_URL ++ "/" ++ toString year ++ "/" ++ pad2 month ++ "/" ++ pad2 day

/-- Drop leading whitespace characters (left half of Python `str.strip`). -/
def ltrimChars (l : List Char) : List Char := l.dropWhile Char.isWhitespace

/-- Drop trailing whitespace characters (right half of Python `str.strip`). -/
def rtrimChars (l : List Char) : List Char :=
  (l.reverse.dropWhile Char.isWhitespace).reverse

/-- Model of Python `str.strip`. -/
def stripChars (l : List Char) : List Char := rtrimChars (ltrimChars l)

/-- Model of `.replace(',', '.')` followed by `.replace(' ', '')`:
single-character pattern replacement is characterwise substitution, and
single-character pattern removal is filtering. -/
def normalizeChars (l : List Char) : List Char :=
  (l.map (fun c => if c = ',' then '.' else c)).filter (fun c => c != ' ')

/-- The category cell, `cells[0].get_text().strip()` (scraper.py line 68). -/
def stripCell (s : String) : String := ⟨stripChars s.data⟩

/-- A value cell, `cell.get_text().strip().replace(',', '.').replace(' ', '')`
(scraper.py line 69). -/
def normalizeCell (s : String) : String := ⟨normalizeChars (stripChars s.data)⟩

/-- Value of a digit string read left to right. -/
def digitsToNat (l : List Char) : Nat :=
  List.foldl (fun a c => a * 10 + (c.toNat - 48)) 0 l

/-- Optional leading sign of a numeric literal (the sign is 1 or -1). -/
def parseSign (l : List Char) : Int × List Char :=
  match l with
  | [] => (1, [])
  | c :: r => if c = '-' then (-1, r) else if c = '+' then (1, r) else (1, c :: r)

/-- Value of a numeric literal after the sign: `ip` is its integer-digit
part and `rest` what follows; an empty rest or a dot followed by fractional
digits is accepted, anything else is missing.  The value
`sgn * (ip + fp / 10 ^ |fp|)` is built as one `mkRat` so that it stays
kernel-computable. -/
def parseTail (sgn : Int) (ip rest : List Char) : Option Rat :=
  match rest with
  | [] => if ip.isEmpty then none else some (mkRat (sgn * digitsToNat ip) 1)
  | c :: fp =>
    if c = '.' then
      if fp.all Char.isDigit && !(ip.isEmpty && fp.isEmpty) then
        some (mkRat (sgn * (digitsToNat ip * 10 ^ fp.length + digitsToNat fp))
          (10 ^ fp.length))
      else none
    else none

/-- Model of the numeric coercion done by `pd.to_numeric(..., errors='coerce')`
on one cell string (scraper.py line 87): an optional sign, integer digits and
an optional dot-separated fractional part; any other shape coerces to missing
(`none`), never an error.  Exponent and special float forms do not occur in
the source data and are omitted from the model. -/
def parseDecimalCore (l : List Char) : Option Rat :=
  parseTail (parseSign l).1 ((parseSign l).2.takeWhile Char.isDigit)
    ((parseSign l).2.dropWhile Char.isDigit)

/-- Numeric coercion of a string. -/
def parseDecimal (s : String) : Option Rat := parseDecimalCore s.data

/-- The per-cell pipeline applied to a raw cell: strip and normalize
(scraper.py line 69), then coerce to numeric (line 87). -/
def coerceValue (s : String) : Option Rat := parseDecimal (normalizeCell s)

/-- A Python exception raised by the pipeline. -/
inductive PyError where
  | indexError
  | valueError
deriving DecidableEq

deriving instance DecidableEq for Except

/-- One extracted row before the DataFrame step, the Python list
`[fecha, tipo] + valores` built at scraper.py line 70. -/
structure ParsedRow where
  fecha : Int
  tipo : String
  valores : List String
deriving DecidableEq

/-- One row of the expanded DataFrame `df_expandido`: the date, the category
label and the value columns after numeric coercion (`none` is NaN). -/
structure DailyRecord where
  fecha : Int
  tipo : String
  valores : List (Option Rat)
deriving DecidableEq

/-- Scraper object state: the fields `self.date` and `self.df_expandido`. -/
structure ScraperState where
  date : Int
  df_expandido : List DailyRecord
deriving DecidableEq

/-- An HTTP response: status code and the data-row cell texts of its body. -/
structure Response where
  status_code : Nat
  body : List (List String)
deriving DecidableEq

/-- Model of `EnergyDataScraper.fetch_data` (scraper.py lines 46-51): the
markup on status 200, otherwise `None` plus a printed error line; the second
component is the log output. -/
def fetch_data (resp : Response) : Option (List (List String)) × List String :=
  if resp.status_code = 200 then (some resp.body, [])
  else (none, ["Error al realizar la peticion: " ++ toString resp.status_code])

/-- The row loop of `parse_data` (scraper.py lines 66-70): `cells[0]` on a
row with no cells raises `IndexError`; otherwise the stripped first cell is
the category and the remaining cells become normalized value strings,
prefixed by the scraper's date. -/
def parse_rows (d : Int) : List (List String) → Except PyError (List ParsedRow)
  | [] => .ok []
  | cells :: rest =>
    match cells with
    | [] => .error .indexError
    | c0 :: vs =>
      match parse_rows d rest with
      | .error e => .error e
      | .ok tail => .ok (⟨d, stripCell c0, vs.map normalizeCell⟩ :: tail)

/-- Model of `EnergyDataScraper.parse_data` (scraper.py lines 53-73): an
absent soup yields the empty list, otherwise the data rows are extracted. -/
def parse_data (d : Int) : Option (List (List String)) → Except PyError (List ParsedRow)
  | none => .ok []
  | some rows => parse_rows d rows

/-- Maximum DataFrame row width over the extracted rows; each Python row is
`[fecha, tipo] + valores`, so its width is `2 + valores.length`.
`pd.DataFrame(data, columns)` pads shorter rows with NaN up to the maximum
width and raises when that width differs from the column count (9). -/
def pandasWidth (data : List ParsedRow) : Nat :=
  List.foldl Nat.max 0 (data.map (fun r => 2 + r.valores.length))

/-- One DataFrame row after the `pd.to_numeric(..., errors='coerce')` loop
(scraper.py lines 86-87): each value string is coerced, and NaN padding of a
short row stays missing. -/
def rowToRecord (r : ParsedRow) : DailyRecord :=
  ⟨r.fecha, r.tipo,
    r.valores.map parseDecimal ++ List.replicate (7 - r.valores.length) none⟩

/-- Model of `EnergyDataScraper.expand_data` (scraper.py lines 75-87): empty
data leaves `df_expandido` untouched (the `if data:` guard); otherwise the
DataFrame is built with the nine fixed column names, raising `ValueError` on
a width mismatch, and the value columns are coerced to numeric. -/
def expand_data (st : ScraperState) (data : List ParsedRow) : Except PyError ScraperState :=
  if data.isEmpty then .ok st
  else if pandasWidth data = 9 then .ok ⟨st.date, data.map rowToRecord⟩
  else .error .valueError

/-- Model of `EnergyDataScraper.scrape` (scraper.py lines 89-95). -/
def scrape (st : ScraperState) (resp : Response) : Except PyError ScraperState :=
  match parse_data st.date (fetch_data resp).1 with
  | .error e => .error e
  | .ok data => expand_data st data

/-- Model of `EnergyDataScraper.get_dataframe` (scraper.py lines 97-104). -/
def get_dataframe (st : ScraperState) : List DailyRecord := st.df_expandido

/-- Model of `EnergyDataScraper.__init__` (scraper.py lines 18-28): the date
is stored and `df_expandido` starts as an empty DataFrame. -/
def initScraper (d : Int) : ScraperState := ⟨d, []⟩

/-- The per-day fetch as composed by the application (streamlit_app.py lines
32-34): a fresh scraper for the day, `scrape`, then `get_dataframe`. -/
def fetchDay (d : Int) (resp : Response) : Except PyError (List DailyRecord) :=
  match scrape (initScraper d) resp with
  | .error e => .error e
  | .ok st => .ok (get_dataframe st)

/-- The calendar days visited by `fetch_data_for_period`:
`start_date + timedelta(days=i)` for `i` in `range((end_date - start_date).days + 1)`
(streamlit_app.py lines 29-31). -/
def daysList (s e : Int) : List Int :=
  (List.range (e - s + 1).toNat).map (fun i => s + Int.ofNat i)

/-- The day loop of `fetch_data_for_period` (streamlit_app.py lines 30-36):
one scrape per day, in order; an exception propagates; a non-empty daily
DataFrame is concatenated onto the accumulator and an empty one is skipped. -/
def period_go (env : Int → Response) :
    List Int → List DailyRecord → Except PyError (List DailyRecord)
  | [], acc => .ok acc
  | d :: rest, acc =>
    match fetchDay d (env d) with
    | .error e => .error e
    | .ok daily => period_go env rest (if daily.isEmpty then acc else acc ++ daily)

/-- Model of `EnergyDataApp.fetch_data_for_period` (streamlit_app.py lines
21-36): `env` maps each day to the response its request receives, `df` is
the aggregator's current `self.dataframe`, and the result is the new
`self.dataframe`. -/
def fetch_data_for_period (env : Int → Response) (df : List DailyRecord)
    (s e : Int) : Except PyError (List DailyRecord) :=
  period_go env (daysList s e) df

/-! Helper lemmas shared by the claim theorems. -/

theorem pad2_length : ∀ n < 100, (pad2 n).length = 2 := by decide

theorem digit_ne {c : Char} (h : c.isDigit = true) (x : Char)
    (hx : x.isDigit = false) : c ≠ x := by
  intro hcx
  rw [hcx, hx] at h
  exact Bool.noConfusion h

theorem digit_not_ws {c : Char} (h : c.isDigit = true) : c.isWhitespace = false := by
  have h1 : c ≠ ' ' := digit_ne h ' ' (by decide)
  have h2 : c ≠ '\t' := digit_ne h '\t' (by decide)
  have h3 : c ≠ '\r' := digit_ne h '\r' (by decide)
  have h4 : c ≠ '\n' := digit_ne h '\n' (by decide)
  simp [Char.isWhitespace, h1, h2, h3, h4]

theorem ltrim_cons {c : Char} (l : List Char) (h : c.isWhitespace = false) :
    ltrimChars (c :: l) = c :: l := by
  simp [ltrimChars, List.dropWhile_cons, h]

theorem rtrim_concat (l : List Char) {c : Char} (h : c.isWhitespace = false) :
    rtrimChars (l ++ [c]) = l ++ [c] := by
  simp [rtrimChars, List.dropWhile_cons, h]

theorem map_comma_eq_self (l : List Char) (h : ∀ c ∈ l, c ≠ ',') :
    l.map (fun c => if c = ',' then '.' else c) = l := by
  induction l with
  | nil => rfl
  | cons a t ih =>
    simp only [List.map_cons, if_neg (h a (List.mem_cons_self a t)),
      ih (fun c hc => h c (List.mem_cons_of_mem a hc))]

theorem filter_space_digit (l : List Char) (h : ∀ c ∈ l, c.isDigit = true ∨ c = ' ') :
    l.filter (fun c => c != ' ') = l.filter Char.isDigit := by
  apply List.filter_congr
  intro c hc
  rcases h c hc with hd | rfl
  · simp [hd, bne_iff_ne, digit_ne hd ' ' (by decide)]
  · simp

theorem takeWhile_append_stop (p : Char → Bool) (l1 : List Char) (x : Char)
    (l2 : List Char) (h1 : ∀ c ∈ l1, p c = true) (hx : p x = false) :
    (l1 ++ x :: l2).takeWhile p = l1 := by
  induction l1 with
  | nil => simp [List.takeWhile_cons, hx]
  | cons a t ih =>
    simp only [List.cons_append, List.takeWhile_cons,
      h1 a (List.mem_cons_self a t), if_true,
      ih (fun c hc => h1 c (List.mem_cons_of_mem a hc))]

theorem dropWhile_append_stop (p : Char → Bool) (l1 : List Char) (x : Char)
    (l2 : List Char) (h1 : ∀ c ∈ l1, p c = true) (hx : p x = false) :
    (l1 ++ x :: l2).dropWhile p = x :: l2 := by
  induction l1 with
  | nil => simp [List.dropWhile_cons, hx]
  | cons a t ih =>
    simp only [List.cons_append, List.dropWhile_cons,
      h1 a (List.mem_cons_self a t), if_true,
      ih (fun c hc => h1 c (List.mem_cons_of_mem a hc))]

theorem mem_daysList {s e d : Int} : d ∈ daysList s e ↔ s ≤ d ∧ d ≤ e := by
  unfold daysList
  rw [List.mem_map]
  simp only [Int.ofNat_eq_coe]
  constructor
  · rintro ⟨i, hi, rfl⟩
    rw [List.mem_range] at hi
    omega
  · rintro ⟨h1, h2⟩
    refine ⟨(d - s).toNat, ?_, ?_⟩
    · rw [List.mem_range]
      omega
    · omega

theorem parse_rows_fecha (d : Int) (rows : List (List String))
    (prs : List ParsedRow) (h : parse_rows d rows = .ok prs) :
    ∀ p ∈ prs, p.fecha = d := by
  induction rows generalizing prs with
  | nil =>
    simp only [parse_rows, Except.ok.injEq] at h
    subst h
    intro p hp
    exact absurd hp (by simp)
  | cons cells rest ih =>
    match cells with
    | [] => simp [parse_rows] at h
    | c0 :: vs =>
      simp only [parse_rows] at h
      cases hrec : parse_rows d rest with
      | error e => rw [hrec] at h; exact absurd h (by simp)
      | ok tail =>
        rw [hrec] at h
        simp only [Except.ok.injEq] at h
        subst h
        intro p hp
        rcases List.mem_cons.mp hp with rfl | hp2
        · rfl
        · exact ih tail hrec p hp2

theorem scrape_init_fecha (d : Int) (resp : Response) (st2 : ScraperState)
    (h : scrape (initScraper d) resp = .ok st2) :
    ∀ r ∈ st2.df_expandido, r.fecha = d := by
  unfold scrape at h
  cases hp : parse_data (initScraper d).date (fetch_data resp).1 with
  | error e => rw [hp] at h; exact absurd h (by simp)
  | ok data =>
    rw [hp] at h
    have hfec : ∀ q ∈ data, q.fecha = d := by
      cases hf : (fetch_data resp).1 with
      | none =>
        rw [hf] at hp
        simp only [parse_data, Except.ok.injEq] at hp
        subst hp
        intro q hq
        exact absurd hq (by simp)
      | some rows =>
        rw [hf] at hp
        simp only [parse_data, initScraper] at hp
        exact parse_rows_fecha d rows data hp
    dsimp only at h
    unfold expand_data at h
    by_cases hde : data.isEmpty = true
    · rw [if_pos hde] at h
      simp only [Except.ok.injEq] at h
      subst h
      intro r hr
      exact absurd hr (by simp [initScraper])
    · rw [if_neg hde] at h
      by_cases hw : pandasWidth data = 9
      · rw [if_pos hw] at h
        simp only [Except.ok.injEq] at h
        subst h
        intro r hr
        simp only [List.mem_map] at hr
        obtain ⟨p, hpmem, rfl⟩ := hr
        simp [rowToRecord, hfec p hpmem]
      · rw [if_neg hw] at h
        exact absurd h (by simp)

theorem fetchDay_fecha (d : Int) (resp : Response) (recs : List DailyRecord)
    (h : fetchDay d resp = .ok recs) : ∀ r ∈ recs, r.fecha = d := by
  unfold fetchDay at h
  cases hs : scrape (initScraper d) resp with
  | error e => rw [hs] at h; exact absurd h (by simp)
  | ok st2 =>
    rw [hs] at h
    dsimp only [get_dataframe] at h
    simp only [Except.ok.injEq] at h
    subst h
    exact scrape_init_fecha d resp st2 hs

theorem period_go_append (env : Int → Response) (days : List Int) :
    ∀ acc res, period_go env days acc = .ok res → ∃ t, res = acc ++ t := by
  induction days with
  | nil =>
    intro acc res h
    simp only [period_go, Except.ok.injEq] at h
    exact ⟨[], by simp [← h]⟩
  | cons d rest ih =>
    intro acc res h
    simp only [period_go] at h
    cases hd : fetchDay d (env d) with
    | error e => rw [hd] at h; exact absurd h (by simp)
    | ok daily =>
      rw [hd] at h
      obtain ⟨t, ht⟩ := ih _ res h
      by_cases hde : daily.isEmpty
      · rw [if_pos hde] at ht
        exact ⟨t, ht⟩
      · rw [if_neg hde] at ht
        exact ⟨daily ++ t, by simp [ht]⟩

theorem period_go_ok (env : Int → Response) (dailyOf : Int → List DailyRecord)
    (days : List Int) (hok : ∀ d ∈ days, fetchDay d (env d) = .ok (dailyOf d)) :
    ∀ acc, period_go env days acc = .ok (acc ++ days.flatMap dailyOf) := by
  induction days with
  | nil => intro acc; simp [period_go]
  | cons d rest ih =>
    intro acc
    have hd := hok d (List.mem_cons_self d rest)
    simp only [period_go, hd]
    have hrest := ih (fun x hx => hok x (List.mem_cons_of_mem d hx))
    by_cases hde : (dailyOf d).isEmpty
    · rw [if_pos hde]
      rw [List.isEmpty_iff] at hde
      simp [hrest, hde]
    · rw [if_neg hde]
      simp [hrest]

theorem parseDecimalCore_digits (fp : List Char) (c : Char) (tl2 : List Char)
    (hdig : ∀ x ∈ c :: tl2, x.isDigit = true)
    (hfpAll : ∀ x ∈ fp, x.isDigit = true) :
    parseDecimalCore ((c :: tl2) ++ '.' :: fp) =
      some (mkRat (digitsToNat (c :: tl2) * 10 ^ fp.length + digitsToNat fp)
        (10 ^ fp.length)) := by
  have hc : c.isDigit = true := hdig c (List.mem_cons_self c tl2)
  have hsign : parseSign ((c :: tl2) ++ '.' :: fp) = (1, (c :: tl2) ++ '.' :: fp) := by
    rw [List.cons_append]
    simp only [parseSign]
    rw [if_neg (digit_ne hc '-' (by decide)), if_neg (digit_ne hc '+' (by decide))]
  have htake : ((c :: tl2) ++ '.' :: fp).takeWhile Char.isDigit = c :: tl2 :=
    takeWhile_append_stop _ _ _ _ hdig (by decide)
  have hdrop : ((c :: tl2) ++ '.' :: fp).dropWhile Char.isDigit = '.' :: fp :=
    dropWhile_append_stop _ _ _ _ hdig (by decide)
  have hall : fp.all Char.isDigit = true := List.all_eq_true.mpr hfpAll
  rw [parseDecimalCore, hsign]
  simp only [htake, hdrop]
  simp [parseTail, hall, one_mul]

/-! Claim theorems. -/

/-- C1 as stated is false: the dot-grouped locale input "1.234,56" does not
normalize to the numeric value 1234.56 (which is `mkRat 123456 100`); the
comma is rewritten to a dot but the grouping dot survives, so the numeric
parse fails and the value becomes missing. -/
theorem c1_counterexample :
    coerceValue "1.234,56" = none ∧
    coerceValue "1.234,56" ≠ some (mkRat 123456 100) := by
  decide

/-- C1 (amended): a space-grouped comma-decimal numeral (digits and spaces,
starting with a digit, then a comma and fractional digits) normalizes —
comma to dot, spaces removed — to its standard decimal number; a
dot-grouped input such as "1.234,56" instead coerces to missing, as do the
empty string and a non-numeric string, never raising an error. -/
theorem c1_normalize_space_grouped (c0 : Char) (tl fp : List Char)
    (hc0 : c0.isDigit = true)
    (hipAll : ∀ c ∈ c0 :: tl, c.isDigit = true ∨ c = ' ')
    (hfp : fp ≠ []) (hfpAll : ∀ c ∈ fp, c.isDigit = true) :
    coerceValue ⟨(c0 :: tl) ++ ',' :: fp⟩ =
      some (mkRat
        (digitsToNat ((c0 :: tl).filter Char.isDigit) * 10 ^ fp.length +
          digitsToNat fp)
        (10 ^ fp.length)) ∧
    coerceValue "1.234,56" = none ∧
    coerceValue "" = none ∧
    coerceValue "n/a" = none := by
  refine ⟨?_, by decide, by decide, by decide⟩
  show parseDecimalCore (normalizeChars (stripChars ((c0 :: tl) ++ ',' :: fp))) = _
  obtain ⟨fpi, cl, rfl⟩ : ∃ L b, fp = L ++ [b] := by
    rcases List.eq_nil_or_concat fp with h | ⟨L, b, h⟩
    · exact absurd h hfp
    · exact ⟨L, b, by simpa using h⟩
  have hcl : cl.isDigit = true := hfpAll cl (by simp)
  have hstrip : stripChars ((c0 :: tl) ++ ',' :: (fpi ++ [cl])) =
      (c0 :: tl) ++ ',' :: (fpi ++ [cl]) := by
    unfold stripChars
    rw [List.cons_append, ltrim_cons _ (digit_not_ws hc0)]
    have hshape : c0 :: (tl ++ ',' :: (fpi ++ [cl])) =
        (c0 :: (tl ++ ',' :: fpi)) ++ [cl] := by simp
    rw [hshape, rtrim_concat _ (digit_not_ws hcl)]
  rw [hstrip]
  have hipNoComma : ∀ c ∈ c0 :: tl, c ≠ ',' := by
    intro c hc
    rcases hipAll c hc with hd | rfl
    · exact digit_ne hd ',' (by decide)
    · decide
  have hmap : ((c0 :: tl) ++ ',' :: (fpi ++ [cl])).map
      (fun c => if c = ',' then '.' else c) =
      (c0 :: tl) ++ '.' :: (fpi ++ [cl]) := by
    rw [List.map_append]
    rw [map_comma_eq_self (c0 :: tl) hipNoComma]
    rw [List.map_cons]
    rw [map_comma_eq_self (fpi ++ [cl]) (fun c hc =>
      digit_ne (hfpAll c hc) ',' (by decide))]
    rw [if_pos rfl]
  have hdotfp : List.filter (fun c => c != ' ') ('.' :: (fpi ++ [cl])) =
      '.' :: (fpi ++ [cl]) :=
    List.filter_eq_self.mpr (fun c hc => by
      rcases List.mem_cons.mp hc with rfl | hc2
      · decide
      · simp only [bne_iff_ne, ne_eq]
        exact digit_ne (hfpAll c hc2) ' ' (by decide))
  have hfilter : ((c0 :: tl) ++ '.' :: (fpi ++ [cl])).filter (fun c => c != ' ') =
      ((c0 :: tl).filter Char.isDigit) ++ '.' :: (fpi ++ [cl]) := by
    rw [List.filter_append]
    rw [filter_space_digit (c0 :: tl) hipAll]
    rw [hdotfp]
  show parseDecimalCore
      ((((c0 :: tl) ++ ',' :: (fpi ++ [cl])).map
        (fun c => if c = ',' then '.' else c)).filter (fun c => c != ' ')) = _
  rw [hmap, hfilter]
  have hfc0 : (c0 :: tl).filter Char.isDigit = c0 :: tl.filter Char.isDigit :=
    List.filter_cons_of_pos hc0
  rw [hfc0]
  exact parseDecimalCore_digits (fpi ++ [cl]) c0 (tl.filter Char.isDigit)
    (by
      rw [← hfc0]
      intro x hx
      exact List.of_mem_filter hx)
    hfpAll

theorem c1_witness :
    coerceValue ⟨('1' :: [' ', '2', '3', '4']) ++ ',' :: ['5', '6']⟩ =
      some (mkRat
        (digitsToNat (('1' :: [' ', '2', '3', '4']).filter Char.isDigit) *
          10 ^ (['5', '6'] : List Char).length + digitsToNat ['5', '6'])
        (10 ^ (['5', '6'] : List Char).length)) ∧
    coerceValue "1 234,56" = some (mkRat 123456 100) :=
  ⟨(c1_normalize_space_grouped '1' [' ', '2', '3', '4'] ['5', '6']
      (by decide) (by decide) (by decide) (by decide)).1,
   by decide⟩

/-- C8: for every valid calendar date, `build_url` is a deterministic pure
function producing the path `<base>/<year>/<month>/<day>` whose month and
day segments are exactly two digits, zero padded; the date 2024-02-29 maps
to a path ending in `/2024/02/29`. -/
theorem c8_build_url_format (year month day : Nat)
    (hm1 : 1 ≤ month) (hm2 : month ≤ 12) (hd1 : 1 ≤ day) (hd2 : day ≤ 31) :
    build_url year month day =
      BASE_URL ++ "/" ++ toString year ++ "/" ++ pad2 month ++ "/" ++ pad2 day ∧
    (pad2 month).length = 2 ∧ (pad2 day).length = 2 ∧
    build_url 2024 2 29 = "https://www.ree.es/es/balance-diario/baleares/2024/02/29" :=
  ⟨rfl, pad2_length month (by omega), pad2_length day (by omega), by decide⟩

theorem c8_witness :
    build_url 2024 2 29 =
      BASE_URL ++ "/" ++ toString 2024 ++ "/" ++ pad2 2 ++ "/" ++ pad2 29 ∧
    (pad2 2).length = 2 ∧ (pad2 29).length = 2 ∧
    build_url 2024 2 29 = "https://www.ree.es/es/balance-diario/baleares/2024/02/29" :=
  c8_build_url_format 2024 2 29 (by decide) (by decide) (by decide) (by decide)

/-- C4 as stated is false: 201 is a 2xx-equivalent success status, yet the
retrieval step yields no markup, because the code tests `status_code == 200`
exactly. -/
theorem c4_counterexample :
    200 ≤ 201 ∧ 201 ≤ 299 ∧ (fetch_data ⟨201, [["Solar"]]⟩).1 = none := by
  decide

/-- C4 (amended): retrieval succeeds, yielding the markup, exactly when the
response status is 200; every other status yields no markup together with a
logged error line, and no exception is raised (`fetch_data` is total). -/
theorem c4_fetch_status (resp : Response) :
    ((fetch_data resp).1 = some resp.body ↔ resp.status_code = 200) ∧
    (resp.status_code ≠ 200 →
      (fetch_data resp).1 = none ∧ (fetch_data resp).2 ≠ []) := by
  unfold fetch_data
  by_cases h : resp.status_code = 200
  · simp [h]
  · simp [h]

theorem c4_witness :
    (fetch_data ⟨404, []⟩).1 = none ∧ (fetch_data ⟨404, []⟩).2 ≠ [] :=
  (c4_fetch_status ⟨404, []⟩).2 (by decide)

/-- C5: whenever the retrieval step fails (non-200 status, so no markup is
returned), the composed per-day fetch returns an empty dataset through
`Except.ok`; no transport or parsing error propagates to the caller. -/
theorem c5_failure_yields_empty (d : Int) (resp : Response)
    (h : resp.status_code ≠ 200) : fetchDay d resp = .ok [] := by
  unfold fetchDay scrape parse_data fetch_data
  simp [h, expand_data, initScraper, get_dataframe]

theorem c5_witness : fetchDay 0 ⟨404, [["Solar"]]⟩ = .ok [] :=
  c5_failure_yields_empty 0 ⟨404, [["Solar"]]⟩ (by decide)

/-- C3 as stated is false: a reversed range (start 5, end 3) is not
rejected with an invalid-range failure; the day loop runs zero times and
the fetch silently returns the aggregator's dataset unchanged (empty
here). -/
theorem c3_counterexample :
    fetch_data_for_period (fun _ => ⟨404, []⟩) [] 5 3 = .ok [] ∧ (3 : Int) < 5 :=
  ⟨rfl, by decide⟩

/-- C3 (amended): for `startDate > endDate` the range fetch visits no days
and silently returns the dataset unchanged, rather than rejecting the
request. -/
theorem c3_reversed_range_silent (env : Int → Response) (df : List DailyRecord)
    (s e : Int) (h : e < s) :
    daysList s e = [] ∧ fetch_data_for_period env df s e = .ok df := by
  have h0 : (e - s + 1).toNat = 0 := by omega
  have hdl : daysList s e = [] := by simp [daysList, h0]
  exact ⟨hdl, by simp [fetch_data_for_period, hdl, period_go]⟩

theorem c3_witness :
    daysList 5 3 = [] ∧
    fetch_data_for_period (fun _ => ⟨200, [["Solar"]]⟩) [] 5 3 = .ok [] :=
  c3_reversed_range_silent (fun _ => ⟨200, [["Solar"]]⟩) [] 5 3 (by decide)

/-- C9: empty extraction is a no-op on the stored DataFrame: `expand_data`
with no rows leaves `df_expandido` unchanged; hence a scrape whose fetch
fails or whose page has no data rows returns the scraper state unchanged
(stale data included), and a fresh scraper holds the initial empty
dataset. -/
theorem c9_empty_extraction_frame (st : ScraperState) (resp : Response)
    (h : resp.status_code ≠ 200 ∨ resp.body = []) :
    expand_data st [] = .ok st ∧ scrape st resp = .ok st ∧
    (initScraper st.date).df_expandido = [] := by
  refine ⟨by simp [expand_data], ?_, rfl⟩
  unfold scrape parse_data fetch_data
  rcases h with h | h
  · simp [h, expand_data]
  · by_cases h200 : resp.status_code = 200
    · simp [h200, h, parse_rows, expand_data]
    · simp [h200, expand_data]

theorem c9_witness :
    expand_data ⟨0, [⟨0, "Solar", [some 1]⟩]⟩ [] = .ok ⟨0, [⟨0, "Solar", [some 1]⟩]⟩ ∧
    scrape ⟨0, [⟨0, "Solar", [some 1]⟩]⟩ ⟨404, []⟩ = .ok ⟨0, [⟨0, "Solar", [some 1]⟩]⟩ ∧
    (initScraper (ScraperState.mk 0 [⟨0, "Solar", [some 1]⟩]).date).df_expandido = [] :=
  c9_empty_extraction_frame ⟨0, [⟨0, "Solar", [some 1]⟩]⟩ ⟨404, []⟩ (Or.inl (by decide))

/-- C2 is violated by the code (code bug): a data row with zero cells makes
the day's parse raise `IndexError` at `cells[0]`; a day whose rows' maximum
width differs from the nine expected columns makes the expand step raise
`ValueError` from the DataFrame constructor; either exception aborts the
whole range fetch.  Yet a short row sitting next to a full 8-cell row is
silently kept, padded with missing values, so the handling is also not
consistent. -/
theorem c2_malformed_row_crashes :
    fetchDay 0 ⟨200, [[]]⟩ = .error .indexError ∧
    fetchDay 0 ⟨200, [["Solar", "10,5"]]⟩ = .error .valueError ∧
    fetch_data_for_period (fun _ => ⟨200, [[]]⟩) [] 0 2 = .error .indexError ∧
    fetchDay 0 ⟨200, [["Solar", "10,5", "300", "5,0", "3600", "2,1", "3500", "1,0"],
        ["Eolica", "20,0"]]⟩ =
      .ok [⟨0, "Solar", [some (mkRat 105 10), some (mkRat 300 1), some (mkRat 50 10),
          some (mkRat 3600 1), some (mkRat 21 10), some (mkRat 3500 1), some (mkRat 10 10)]⟩,
        ⟨0, "Eolica", [some (mkRat 200 10), none, none, none, none, none, none]⟩] := by
  refine ⟨rfl, rfl, rfl, by decide⟩

/-- C6: every record produced by the per-day fetch carries the date used to
build that day's request, and a single-day range fetch over `[d, d]`
starting from an empty aggregator yields a dataset whose every record's
date equals `d`. -/
theorem c6_record_dates :
    (∀ d resp recs, fetchDay d resp = .ok recs → ∀ r ∈ recs, r.fecha = d) ∧
    (∀ (env : Int → Response) (d : Int) res,
      fetch_data_for_period env [] d d = .ok res → ∀ r ∈ res, r.fecha = d) := by
  refine ⟨fetchDay_fecha, ?_⟩
  intro env d res h r hr
  have h1 : (d - d + 1).toNat = 1 := by omega
  have hr1 : List.range 1 = [0] := by decide
  have hdl : daysList d d = [d] := by
    simp [daysList, h1, hr1]
  unfold fetch_data_for_period at h
  rw [hdl] at h
  simp only [period_go] at h
  cases hd : fetchDay d (env d) with
  | error e => rw [hd] at h; exact absurd h (by simp)
  | ok daily =>
    rw [hd] at h
    simp only [period_go, Except.ok.injEq] at h
    subst h
    by_cases hde : daily.isEmpty = true
    · rw [if_pos hde] at hr
      exact absurd hr (by simp)
    · rw [if_neg hde] at hr
      simp only [List.nil_append] at hr
      exact fetchDay_fecha d (env d) daily hd r hr

theorem c6_witness :
    ∀ r ∈ ([⟨0, "Solar", [some (mkRat 105 10), some (mkRat 300 1), some (mkRat 50 10),
        some (mkRat 3600 1), some (mkRat 21 10), some (mkRat 3500 1),
        some (mkRat 10 10)]⟩] : List DailyRecord),
      r.fecha = (0 : Int) :=
  c6_record_dates.1 0
    ⟨200, [["Solar", "10,5", "300", "5,0", "3600", "2,1", "3500", "1,0"]]⟩
    _ (by decide)

/-- C7: for a valid range `s ≤ e` the fetch visits exactly
`(e - s).days + 1` calendar days, in ascending order; each day's rows are
appended to the running dataset in that order, preserving the per-day row
order, and a day with an empty result contributes nothing (no placeholder
row). -/
theorem c7_range_iteration (env : Int → Response) (df : List DailyRecord)
    (s e : Int) (dailyOf : Int → List DailyRecord) (hse : s ≤ e)
    (hok : ∀ d ∈ daysList s e, fetchDay d (env d) = .ok (dailyOf d)) :
    (daysList s e).length = (e - s).toNat + 1 ∧
    fetch_data_for_period env df s e = .ok (df ++ (daysList s e).flatMap dailyOf) := by
  constructor
  · simp only [daysList, List.length_map, List.length_range]
    omega
  · exact period_go_ok env dailyOf (daysList s e) hok df

theorem c7_witness :
    (daysList 0 2).length = ((2 : Int) - 0).toNat + 1 ∧
    fetch_data_for_period
      (fun _ => ⟨200, [["Solar", "10,5", "300", "5,0", "3600", "2,1", "3500", "1,0"]]⟩)
      [] 0 2 =
      .ok ([] ++ (daysList 0 2).flatMap (fun x =>
        [⟨x, "Solar", [some (mkRat 105 10), some (mkRat 300 1), some (mkRat 50 10),
          some (mkRat 3600 1), some (mkRat 21 10), some (mkRat 3500 1),
          some (mkRat 10 10)]⟩])) :=
  c7_range_iteration _ [] 0 2 _ (by decide) (by decide)

/-- C10: the range fetch is append-only on the aggregator's combined
dataset (each successful call returns the previous dataframe with the new
daily rows concatenated after it), so two successive calls over
overlapping ranges hold the overlapped day's (date, category) row at least
twice. -/
theorem c10_append_only_duplicates (env : Int → Response)
    (dailyOf : Int → List DailyRecord) (df : List DailyRecord)
    (s e s2 e2 d : Int)
    (hok : ∀ x, fetchDay x (env x) = .ok (dailyOf x))
    (h1 : s ≤ d ∧ d ≤ e) (h2 : s2 ≤ d ∧ d ≤ e2)
    (r : DailyRecord) (rest : List DailyRecord) (hr : dailyOf d = r :: rest) :
    ∃ t1 t2,
      fetch_data_for_period env df s e = .ok (df ++ t1) ∧
      fetch_data_for_period env (df ++ t1) s2 e2 = .ok ((df ++ t1) ++ t2) ∧
      2 ≤ ((df ++ t1) ++ t2).countP
        (fun x => decide (x.fecha = r.fecha ∧ x.tipo = r.tipo)) := by
  refine ⟨(daysList s e).flatMap dailyOf, (daysList s2 e2).flatMap dailyOf,
    period_go_ok env dailyOf _ (fun x _ => hok x) df,
    period_go_ok env dailyOf _ (fun x _ => hok x) _, ?_⟩
  have hmemr : r ∈ dailyOf d := by rw [hr]; exact List.mem_cons_self r rest
  have hmem1 : r ∈ (daysList s e).flatMap dailyOf :=
    List.mem_flatMap.mpr ⟨d, mem_daysList.mpr h1, hmemr⟩
  have hmem2 : r ∈ (daysList s2 e2).flatMap dailyOf :=
    List.mem_flatMap.mpr ⟨d, mem_daysList.mpr h2, hmemr⟩
  have c1 : 0 < List.countP (fun x => decide (x.fecha = r.fecha ∧ x.tipo = r.tipo))
      ((daysList s e).flatMap dailyOf) :=
    List.countP_pos_iff.mpr ⟨r, hmem1, by simp⟩
  have c2 : 0 < List.countP (fun x => decide (x.fecha = r.fecha ∧ x.tipo = r.tipo))
      ((daysList s2 e2).flatMap dailyOf) :=
    List.countP_pos_iff.mpr ⟨r, hmem2, by simp⟩
  rw [List.countP_append, List.countP_append]
  omega

theorem c10_witness :
    ∃ t1 t2,
      fetch_data_for_period
        (fun _ => ⟨200, [["Solar", "10,5", "300", "5,0", "3600", "2,1", "3500", "1,0"]]⟩)
        [] 0 2 = .ok ([] ++ t1) ∧
      fetch_data_for_period
        (fun _ => ⟨200, [["Solar", "10,5", "300", "5,0", "3600", "2,1", "3500", "1,0"]]⟩)
        ([] ++ t1) 1 3 = .ok (([] ++ t1) ++ t2) ∧
      2 ≤ (([] ++ t1) ++ t2).countP
        (fun x => decide (x.fecha = (DailyRecord.mk 1 "Solar"
            [some (mkRat 105 10), some (mkRat 300 1), some (mkRat 50 10),
              some (mkRat 3600 1), some (mkRat 21 10), some (mkRat 3500 1),
              some (mkRat 10 10)]).fecha ∧
          x.tipo = (DailyRecord.mk 1 "Solar"
            [some (mkRat 105 10), some (mkRat 300 1), some (mkRat 50 10),
              some (mkRat 3600 1), some (mkRat 21 10), some (mkRat 3500 1),
              some (mkRat 10 10)]).tipo)) :=
  c10_append_only_duplicates
    (fun _ => ⟨200, [["Solar", "10,5", "300", "5,0", "3600", "2,1", "3500", "1,0"]]⟩)
    (fun x => [⟨x, "Solar", [some (mkRat 105 10), some (mkRat 300 1), some (mkRat 50 10),
      some (mkRat 3600 1), some (mkRat 21 10), some (mkRat 3500 1),
      some (mkRat 10 10)]⟩])
    [] 0 2 1 3 1 (fun x => rfl) (by decide) (by decide) _ [] rfl

end EnergyBaleares
